import Mathlib

/-!
Verification of the `caragols` command-line shell (`caragols/lib/clix.py`).

The development shallowly embeds the idiom resolver (`App.idioms`,
`App.cognize`), the dispatch-table construction in `App.__init__`, and the
orchestration in `App.run`.  Python strings are Lean `String`s; the string
operations the code relies on (`split`, `startswith`, string comparison used
by `sorted`) are re-implemented over character lists so that every definition
evaluates inside the kernel.  The collaborator modules `caragols.lib.carp`
(the Report/Outcome model) and `caragols.lib.condo` (the Condex configuration
store with its `sed` mutation language) are not part of the sources; where a
claim depends on them they are modelled from the specification, as noted on
each definition.
-/

namespace Caragols

/-- Python string comparison `a < b` (lexicographic on code points), on the
underlying character lists.  Mirrors CPython `str.__lt__`. -/
def pyLtChars : List Char → List Char → Bool
  | _, [] => false
  | [], _ :: _ => true
  | a :: as, b :: bs => if a < b then true else if a = b then pyLtChars as bs else false

/-- Python list comparison `as <= bs` for lists of strings, as used by
`sorted` on the `tokens` component of the `(gravity, tokens, action)`
tuples in `App.idioms`.  Mirrors CPython sequence comparison. -/
def pyLeTokens : List String → List String → Bool
  | [], _ => true
  | _ :: _, [] => false
  | a :: as, b :: bs => if a = b then pyLeTokens as bs else pyLtChars a.data b.data

/-- Python tuple comparison `x <= y` on `(gravity, tokens)` pairs, as used by
`sorted(idioms, reverse=True)` in `App.idioms` (clix.py line 188).  The third
tuple component (the bound method) is never reached by the comparison because
distinct `do_*` attributes always produce distinct token lists. -/
def keyLe (x y : Nat × List String) : Bool :=
  if x.1 < y.1 then true else if x.1 = y.1 then pyLeTokens x.2 y.2 else false

/-- Descending order used by `sorted(idioms, reverse=True)`: `a` precedes `b`
when `b`'s `(gravity, tokens)` key is at most `a`'s. -/
def descRel {α : Type} (a b : Nat × List String × α) : Prop :=
  keyLe (b.1, b.2.1) (a.1, a.2.1) = true

instance {α : Type} : DecidableRel (@descRel α) := fun a b =>
  inferInstanceAs (Decidable (keyLe (b.1, b.2.1) (a.1, a.2.1) = true))

/-- Embedding of the `App.idioms` property (clix.py lines 179-191): each
dispatch `(tokens, action)` becomes `(gravity, tokens, action)` with
`gravity = len(tokens)`, and the list is sorted in descending tuple order. -/
def idioms {α : Type} (dispatches : List (List String × α)) :
    List (Nat × List String × α) :=
  List.insertionSort descRel (dispatches.map fun d => (d.1.length, d.1, d.2))

/-- Embedding of the matching loop in `App.cognize` (clix.py lines 202-208):
walk the sorted idioms and stop at the first entry whose token list equals
`comargs[:gravity]`. -/
def findMatch {α : Type} (comargs : List String) :
    List (Nat × List String × α) → Option (Nat × List String × α)
  | [] => none
  | e :: rest => if comargs.take e.1 = e.2.1 then some e else findMatch comargs rest

/-- Embedding of `App.cognize` up to (but not including) the call
`self.conf.sed(confargs)` (clix.py lines 193-219): on a match it answers the
matched tokens, the action, and the remainder `comargs[gravity:]` that is
handed to the mutation parser; otherwise it answers `none`. -/
def cognizeCore {α : Type} (dispatches : List (List String × α))
    (comargs : List String) : Option (List String × α × List String) :=
  match findMatch comargs (idioms dispatches) with
  | some e => some (e.2.1, e.2.2, comargs.drop e.1)
  | none => none

/-- Python `attr.startswith("do_")`, on the underlying character list. -/
def startsWithDo (attr : String) : Bool :=
  attr.data.take 3 = ['d', 'o', '_']

/-- Python `str.split(sep)` for a one-character separator, on character
lists.  `split` of the empty string is `[""]`, never `[]`. -/
def pySplitChars (sep : Char) : List Char → List (List Char)
  | [] => [[]]
  | c :: cs =>
    if c = sep then [] :: pySplitChars sep cs
    else
      match pySplitChars sep cs with
      | [] => [[c]]
      | w :: ws => (c :: w) :: ws

/-- Python `s.split('_')` as a `String` operation. -/
def pySplitOn (sep : Char) (s : String) : List String :=
  (pySplitChars sep s.data).map fun cs => String.mk cs

/-- Embedding of the dispatch-table construction in `App.__init__`
(clix.py lines 72-78): every attribute name that starts with `do_` and is
callable contributes `(attr[3:].split('_'), attr)`.  An attribute is given
as a `(name, callable?)` pair. -/
def buildDispatches (attrs : List (String × Bool)) : List (List String × String) :=
  attrs.filterMap fun a =>
    if startsWithDo a.1 && a.2 then
      some (pySplitOn '_' (String.mk (a.1.data.drop 3)), a.1)
    else none

/-- Modelled from the spec: the Outcome kinds of `caragols.lib.carp`
(spec section 3 and 4.4), the module itself being absent from the sources.
One of Success, Inconclusive, Failure, Exception. -/
inductive RStatus : Type
  | success
  | inconclusive
  | failure
  | exception
deriving DecidableEq

/-- Modelled from the spec: the `indicates_failure` predicate of the carp
status model (spec section 4.4): true for Failure and Exception, false for
Success and Inconclusive. -/
def indicates_failure : RStatus → Bool
  | RStatus.failure => true
  | RStatus.exception => true
  | _ => false

/-- JSON-document nodes, standing for the nested data handed to reports
(`dex` payloads and `conf.toJDN()` snapshots). -/
inductive JDN : Type
  | null : JDN
  | str : String → JDN
  | arr : List JDN → JDN
  | obj : List (String × JDN) → JDN

/-- Modelled from the spec: a carp Report, holding a status kind, a `body`
text and an optional structured payload (spec section 3, Outcome). -/
structure Report : Type where
  status : RStatus
  body : String
  data : Option JDN

/-- Environment of one `App.run` invocation.  `dispatches` is the table
built in `__init__`; `sed` is the condo mutation parser (modelled from the
spec as a fallible token consumer, spec section 4.2, since
`caragols.lib.condo` is absent from the sources); `act` is the behavior of
each action: it may raise (`Except.error` with the message) or finish,
having set a report or not (`Option Report`); `doc`, `methodStr` and
`toJDN` supply `action.__doc__`, `str(action)` and `self.conf.toJDN()`. -/
structure AppModel : Type where
  dispatches : List (List String × Nat)
  sed : List String → Except String (List String)
  act : Nat → List String → Except String (Option Report)
  doc : Nat → Option String
  methodStr : Nat → String
  toJDN : JDN

/-- Embedding of full `App.cognize` (clix.py lines 193-219): the core match
followed by `barewords = self.conf.sed(confargs)`.  A `sed` error is not
caught anywhere in `cognize`, so it surfaces as `Except.error`. -/
def cognizeModel (m : AppModel) (args : List String) :
    Except String (Option (List String × Nat × List String)) :=
  match cognizeCore m.dispatches args with
  | none => Except.ok none
  | some (toks, aid, confargs) =>
    match m.sed confargs with
    | Except.error e => Except.error e
    | Except.ok barewords => Except.ok (some (toks, aid, barewords))

/-- Observable result of one `App.run` invocation that terminated normally:
the report that was rendered, the `sys.exit` code (`none` outside cli mode),
the `gui` return value, which action body was actually executed (`none` when
none was), and the log records emitted by the completion methods. -/
structure RunOut : Type where
  report : Report
  exitCode : Option Nat
  guiResult : Option String
  invoked : Option Nat
  logs : List (String × String)

/-- Embedding of the `explain` detection in `App.run` (clix.py lines
265-267): a leading `explain` token is stripped and remembered. -/
def stripExplain : List String → Bool × List String
  | "explain" :: rest => (true, rest)
  | comargs => (false, comargs)

/-- Guidance message built by `App.run` when `cognize` finds no match
(clix.py lines 290-291). -/
def badRequestBody : String :=
  "Bad request due to no \"matched\".\ntry using \"help\" command?"

/-- Message of the crash report synthesized when an action sets no report
(clix.py line 300). -/
def noReportBody : String := "no report returned by action!"

/-- Python `str(x)` of an optional documentation string: `None` prints as
`None`. -/
def pyStrOfDoc : Option String → String
  | none => "None"
  | some s => s

/-- Body text built by `App.do_explain` (clix.py lines 376-379); the
literal contains tab characters exactly as in the source. -/
def explainBody (comwords : List String) (doc : Option String) : String :=
  "\n\t\texplaining \"" ++ String.intercalate " " comwords ++ "\"\n\t\t" ++
    pyStrOfDoc doc ++ "\n\t\t"

/-- JDN value of an optional documentation string: `None` becomes null. -/
def jdnOfDoc : Option String → JDN
  | none => JDN.null
  | some s => JDN.str s

/-- Payload dictionary built by `App.do_explain` (clix.py lines 367-374):
the would-be invocation (idiom, method, args, doc) plus the configuration
snapshot `self.conf.toJDN()`. -/
def explainData (m : AppModel) (comwords : List String) (aid : Nat)
    (barewords : List String) : JDN :=
  JDN.obj
    [("invoke", JDN.obj
        [("idiom", JDN.str (String.intercalate " " comwords)),
         ("method", JDN.str (m.methodStr aid)),
         ("args", JDN.arr (barewords.map JDN.str)),
         ("doc", jdnOfDoc (m.doc aid))]),
     ("context", m.toJDN)]

/-- Final bookkeeping of `App.run` (clix.py lines 302-313): in cli mode the
report is rendered and `sys.exit(1)` or `sys.exit(0)` is chosen by
`self.report.status.indicates_failure`; in gui mode a success dictionary is
returned instead and no exit code is produced. -/
def finishRun (rep : Report) (run_mode : String) (invoked : Option Nat)
    (logs : List (String × String)) : RunOut :=
  { report := rep
    exitCode :=
      if run_mode = "cli" then
        some (if indicates_failure rep.status then 1 else 0)
      else none
    guiResult := if run_mode = "gui" then some "success" else none
    invoked := invoked
    logs := logs }

/-- Embedding of `App.run` (clix.py lines 232-313).  Only the call
`action(barewords, **xtraopts)` is guarded by `try/except` (lines 280-288);
`cognize` — and with it `conf.sed` — runs unguarded at line 268, so a `sed`
error escapes as `Except.error`.  A missing report after the action is
replaced by a crash report (lines 299-300), and `crashed` logs its message
at critical severity (line 355). -/
def runModel (m : AppModel) (comargs : List String) (run_mode : String) :
    Except String RunOut :=
  let p := stripExplain comargs
  match cognizeModel m p.2 with
  | Except.error msg => Except.error msg
  | Except.ok none =>
    Except.ok (finishRun (Report.mk RStatus.failure badRequestBody none)
      run_mode none [])
  | Except.ok (some (toks, aid, barewords)) =>
    if p.1 then
      Except.ok (finishRun
        (Report.mk RStatus.success (explainBody toks (m.doc aid))
          (some (explainData m toks aid barewords)))
        run_mode none [])
    else
      match m.act aid barewords with
      | Except.error msg =>
        Except.ok (finishRun (Report.mk RStatus.exception msg none)
          run_mode (some aid) [("critical", msg)])
      | Except.ok (some rep) =>
        Except.ok (finishRun rep run_mode (some aid) [])
      | Except.ok none =>
        Except.ok (finishRun (Report.mk RStatus.exception noReportBody none)
          run_mode (some aid) [("critical", noReportBody)])

/-- Attribute names bound by the class body of `App` in clix.py: the class
constant `DEFAULTS` plus every method and property defined on the class. -/
def appClassAttrs : List String :=
  ["DEFAULTS", "debug", "info", "warning", "error", "critical", "name",
   "configuration_folders", "_get_configuration_folders", "configure",
   "initialize_logger", "configure_logger", "idioms", "cognize", "begun",
   "run", "done", "succeeded", "finished", "failed", "crashed",
   "do_explain", "do_help"]

/-- Instance attribute names assigned (`self.x = ...`) anywhere in the
methods of `App` in clix.py: `run_mode`, `comargs`, `actions`,
`dispatches`, `_name`, `conf`, `DEFAULTS` in `__init__`; `logger` in the
logger methods; `_name` in the `name` property; `comargs` and `report` in
`run`; `report` in the completion methods. -/
def appAssignedAttrs : List String :=
  ["run_mode", "comargs", "actions", "dispatches", "_name", "conf",
   "DEFAULTS", "logger", "report"]

/-- Phases of `App.__init__` in source order (clix.py lines 40-87): the
plain attribute assignments of lines 41-45, the `self.mode` read of line
46, configuration setup (lines 48-65), the `do_*` attribute scan building
the dispatch table (lines 70-82, with a second `self.mode` read at line
70), and the final `self.run` call (line 87). -/
inductive InitPhase : Type
  | assignBasics
  | readMode
  | configSetup
  | attrScan
  | runLoop
deriving DecidableEq

/-- Embedding of `App.__init__` (clix.py lines 40-87) at the level of
attribute lookup.  Its parameters `name`, `run_mode`, `comargs` are bound
to other attribute names before anything else, after which line 46
evaluates `self.mode == 'debug'`: a Python attribute lookup that succeeds
only when `mode` is found on the instance or its class.  `subclassAttrs`
lists whatever extra attributes a subclass supplies; base `App` itself
supplies `appClassAttrs` and the line 41-45 instance assignments.  The
answer is the list of phases executed, and the AttributeError message when
the lookup fails. -/
def appInit (name run_mode : String) (comargs subclassAttrs : List String) :
    List InitPhase × Option String :=
  let _ := name
  let _ := run_mode
  let _ := comargs
  let attrs := ["run_mode", "comargs", "actions", "dispatches", "_name"] ++
    appClassAttrs ++ subclassAttrs
  if "mode" ∈ attrs then
    ([InitPhase.assignBasics, InitPhase.readMode, InitPhase.configSetup,
      InitPhase.attrScan, InitPhase.runLoop], none)
  else
    ([InitPhase.assignBasics],
     some "AttributeError: App object has no attribute mode")

/-- Example application whose mutation parser always raises, as a
Mutation Syntax error from `conf.sed` would. -/
def sedFailApp : AppModel :=
  { dispatches := [(["help"], 0)]
    sed := fun _ => Except.error "mutation syntax error"
    act := fun _ _ => Except.ok (some (Report.mk RStatus.success "" none))
    doc := fun _ => none
    methodStr := fun _ => "bound method App.do_help"
    toJDN := JDN.obj [] }

/-- Example application with a transparent mutation parser (every token is
a bareword) and one succeeding action `do_make`. -/
def plainApp : AppModel :=
  { dispatches := [(["make"], 7)]
    sed := fun args => Except.ok args
    act := fun _ _ => Except.ok (some (Report.mk RStatus.success "made" none))
    doc := fun _ => some "makes things"
    methodStr := fun _ => "bound method App.do_make"
    toJDN := JDN.obj [] }

/-- Example application whose only action `do_run` raises. -/
def crashApp : AppModel :=
  { dispatches := [(["run"], 3)]
    sed := fun args => Except.ok args
    act := fun _ _ => Except.error "boom"
    doc := fun _ => none
    methodStr := fun _ => "bound method App.do_run"
    toJDN := JDN.obj [] }

/-- Example application whose only action `do_quiet` finishes without
setting any report. -/
def silentApp : AppModel :=
  { dispatches := [(["quiet"], 4)]
    sed := fun args => Except.ok args
    act := fun _ _ => Except.ok none
    doc := fun _ => none
    methodStr := fun _ => "bound method App.do_quiet"
    toJDN := JDN.obj [] }

/-- Example application with an empty dispatch table, so that no command
line matches any idiom. -/
def emptyApp : AppModel :=
  { dispatches := []
    sed := fun args => Except.ok args
    act := fun _ _ => Except.ok none
    doc := fun _ => none
    methodStr := fun _ => ""
    toJDN := JDN.obj [] }

/-- Run output of a no-match invocation in cli mode. -/
def noMatchOut : RunOut :=
  { report := Report.mk RStatus.failure badRequestBody none
    exitCode := some 1
    guiResult := none
    invoked := none
    logs := [] }

theorem pyLtChars_cons {a b : Char} {as bs : List Char} :
    pyLtChars (a :: as) (b :: bs) = true ↔
      (a < b ∨ (a = b ∧ pyLtChars as bs = true)) := by
  simp only [pyLtChars]
  split_ifs with h1 h2 <;> simp_all

theorem pyLtChars_irrefl : ∀ l : List Char, pyLtChars l l = false := by
  intro l
  induction l with
  | nil => rfl
  | cons a as ih => simp [pyLtChars, lt_irrefl, ih]

theorem pyLtChars_trans {a b c : List Char} (hab : pyLtChars a b = true)
    (hbc : pyLtChars b c = true) : pyLtChars a c = true := by
  induction a generalizing b c with
  | nil =>
    cases c with
    | nil =>
      cases b with
      | nil => exact hab
      | cons y ys => simp [pyLtChars] at hbc
    | cons z zs => simp [pyLtChars]
  | cons x xs ih =>
    cases b with
    | nil => simp [pyLtChars] at hab
    | cons y ys =>
      cases c with
      | nil => simp [pyLtChars] at hbc
      | cons z zs =>
        rw [pyLtChars_cons] at hab hbc ⊢
        rcases hab with h1 | ⟨h1, h1t⟩
        · rcases hbc with h2 | ⟨h2, h2t⟩
          · exact Or.inl (lt_trans h1 h2)
          · exact Or.inl (h2 ▸ h1)
        · rcases hbc with h2 | ⟨h2, h2t⟩
          · exact Or.inl (h1 ▸ h2)
          · exact Or.inr ⟨h1.trans h2, ih h1t h2t⟩

theorem pyLtChars_total_of_ne {a b : List Char} (h : a ≠ b) :
    pyLtChars a b = true ∨ pyLtChars b a = true := by
  induction a generalizing b with
  | nil =>
    cases b with
    | nil => exact absurd rfl h
    | cons y ys => exact Or.inl (by simp [pyLtChars])
  | cons x xs ih =>
    cases b with
    | nil => exact Or.inr (by simp [pyLtChars])
    | cons y ys =>
      rcases lt_trichotomy x y with hlt | heq | hgt
      · exact Or.inl (pyLtChars_cons.mpr (Or.inl hlt))
      · subst heq
        have hne : xs ≠ ys := fun hx => h (hx ▸ rfl)
        rcases ih hne with ht | ht
        · exact Or.inl (pyLtChars_cons.mpr (Or.inr ⟨rfl, ht⟩))
        · exact Or.inr (pyLtChars_cons.mpr (Or.inr ⟨rfl, ht⟩))
      · exact Or.inr (pyLtChars_cons.mpr (Or.inl hgt))

theorem pyLeTokens_cons {a b : String} {as bs : List String} :
    pyLeTokens (a :: as) (b :: bs) = true ↔
      ((a = b ∧ pyLeTokens as bs = true) ∨
        (a ≠ b ∧ pyLtChars a.data b.data = true)) := by
  simp only [pyLeTokens]
  split_ifs with h <;> simp_all

theorem pyLeTokens_refl : ∀ l : List String, pyLeTokens l l = true := by
  intro l
  induction l with
  | nil => rfl
  | cons a as ih => simp [pyLeTokens, ih]

theorem data_ne_of_ne {a b : String} (h : a ≠ b) : a.data ≠ b.data :=
  fun hd => h (String.ext hd)

theorem ne_of_pyLtChars {a b : String} (h : pyLtChars a.data b.data = true) :
    a ≠ b := by
  intro he
  subst he
  rw [pyLtChars_irrefl] at h
  exact Bool.false_ne_true h

theorem pyLeTokens_trans {a b c : List String} (hab : pyLeTokens a b = true)
    (hbc : pyLeTokens b c = true) : pyLeTokens a c = true := by
  induction a generalizing b c with
  | nil => simp [pyLeTokens]
  | cons x xs ih =>
    cases b with
    | nil => simp [pyLeTokens] at hab
    | cons y ys =>
      cases c with
      | nil => simp [pyLeTokens] at hbc
      | cons z zs =>
        rw [pyLeTokens_cons] at hab hbc ⊢
        rcases hab with ⟨h1, h1t⟩ | ⟨h1, h1l⟩
        · rcases hbc with ⟨h2, h2t⟩ | ⟨h2, h2l⟩
          · exact Or.inl ⟨h1.trans h2, ih h1t h2t⟩
          · exact Or.inr ⟨h1 ▸ h2, h1 ▸ h2l⟩
        · rcases hbc with ⟨h2, h2t⟩ | ⟨h2, h2l⟩
          · exact Or.inr ⟨h2 ▸ h1, h2 ▸ h1l⟩
          · refine Or.inr ⟨?_, pyLtChars_trans h1l h2l⟩
            intro he
            have : pyLtChars x.data x.data = true :=
              pyLtChars_trans h1l (he ▸ h2l)
            rw [pyLtChars_irrefl] at this
            exact Bool.false_ne_true this

theorem pyLeTokens_total (a b : List String) :
    pyLeTokens a b = true ∨ pyLeTokens b a = true := by
  induction a generalizing b with
  | nil => exact Or.inl rfl
  | cons x xs ih =>
    cases b with
    | nil => exact Or.inr rfl
    | cons y ys =>
      by_cases hxy : x = y
      · subst hxy
        rcases ih ys with ht | ht
        · exact Or.inl (pyLeTokens_cons.mpr (Or.inl ⟨rfl, ht⟩))
        · exact Or.inr (pyLeTokens_cons.mpr (Or.inl ⟨rfl, ht⟩))
      · rcases pyLtChars_total_of_ne (data_ne_of_ne hxy) with ht | ht
        · exact Or.inl (pyLeTokens_cons.mpr (Or.inr ⟨hxy, ht⟩))
        · exact Or.inr (pyLeTokens_cons.mpr (Or.inr ⟨Ne.symm hxy, ht⟩))

theorem keyLe_iff {x y : Nat × List String} :
    keyLe x y = true ↔
      (x.1 < y.1 ∨ (x.1 = y.1 ∧ pyLeTokens x.2 y.2 = true)) := by
  simp only [keyLe]
  split_ifs with h1 h2 <;> simp_all

theorem keyLe_refl (x : Nat × List String) : keyLe x x = true :=
  keyLe_iff.mpr (Or.inr ⟨rfl, pyLeTokens_refl x.2⟩)

theorem keyLe_trans {x y z : Nat × List String} (hxy : keyLe x y = true)
    (hyz : keyLe y z = true) : keyLe x z = true := by
  rw [keyLe_iff] at hxy hyz ⊢
  rcases hxy with h1 | ⟨h1, h1t⟩
  · rcases hyz with h2 | ⟨h2, h2t⟩
    · exact Or.inl (lt_trans h1 h2)
    · exact Or.inl (h2 ▸ h1)
  · rcases hyz with h2 | ⟨h2, h2t⟩
    · exact Or.inl (h1 ▸ h2)
    · exact Or.inr ⟨h1.trans h2, pyLeTokens_trans h1t h2t⟩

theorem keyLe_total (x y : Nat × List String) :
    keyLe x y = true ∨ keyLe y x = true := by
  rcases lt_trichotomy x.1 y.1 with h | h | h
  · exact Or.inl (keyLe_iff.mpr (Or.inl h))
  · rcases pyLeTokens_total x.2 y.2 with ht | ht
    · exact Or.inl (keyLe_iff.mpr (Or.inr ⟨h, ht⟩))
    · exact Or.inr (keyLe_iff.mpr (Or.inr ⟨h.symm, ht⟩))
  · exact Or.inr (keyLe_iff.mpr (Or.inl h))

theorem keyLe_fst_le {x y : Nat × List String} (h : keyLe x y = true) :
    x.1 ≤ y.1 := by
  rcases keyLe_iff.mp h with h1 | ⟨h1, _⟩
  · exact le_of_lt h1
  · exact le_of_eq h1

theorem findMatch_mem {α : Type} {c : List String}
    {l : List (Nat × List String × α)} {e : Nat × List String × α}
    (h : findMatch c l = some e) : e ∈ l := by
  induction l with
  | nil => simp [findMatch] at h
  | cons x xs ih =>
    by_cases hx : c.take x.1 = x.2.1
    · simp only [findMatch, if_pos hx, Option.some.injEq] at h
      exact h ▸ List.mem_cons_self x xs
    · simp only [findMatch, if_neg hx] at h
      exact List.mem_cons_of_mem x (ih h)

theorem findMatch_matches {α : Type} {c : List String}
    {l : List (Nat × List String × α)} {e : Nat × List String × α}
    (h : findMatch c l = some e) : c.take e.1 = e.2.1 := by
  induction l with
  | nil => simp [findMatch] at h
  | cons x xs ih =>
    by_cases hx : c.take x.1 = x.2.1
    · simp only [findMatch, if_pos hx, Option.some.injEq] at h
      exact h ▸ hx
    · simp only [findMatch, if_neg hx] at h
      exact ih h

theorem findMatch_max {α : Type} {c : List String}
    {l : List (Nat × List String × α)} {e : Nat × List String × α}
    (hs : List.Sorted descRel l) (h : findMatch c l = some e) :
    ∀ f ∈ l, c.take f.1 = f.2.1 → keyLe (f.1, f.2.1) (e.1, e.2.1) = true := by
  induction l with
  | nil => simp [findMatch] at h
  | cons x xs ih =>
    rw [List.sorted_cons] at hs
    by_cases hx : c.take x.1 = x.2.1
    · simp only [findMatch, if_pos hx, Option.some.injEq] at h
      subst h
      intro f hf hmf
      rcases List.mem_cons.mp hf with hfx | hfx
      · exact hfx ▸ keyLe_refl _
      · exact hs.1 f hfx
    · simp only [findMatch, if_neg hx] at h
      intro f hf hmf
      rcases List.mem_cons.mp hf with hfx | hfx
      · exact absurd (hfx ▸ hmf) hx
      · exact ih hs.2 h f hfx hmf

theorem sorted_idioms {α : Type} (dispatches : List (List String × α)) :
    List.Sorted descRel (idioms dispatches) := by
  haveI : IsTotal (Nat × List String × α) descRel :=
    ⟨fun a b => (keyLe_total (b.1, b.2.1) (a.1, a.2.1)).elim Or.inl Or.inr⟩
  haveI : IsTrans (Nat × List String × α) descRel :=
    ⟨fun _ _ _ hab hbc => keyLe_trans hbc hab⟩
  exact List.sorted_insertionSort descRel _

theorem mem_idioms {α : Type} {dispatches : List (List String × α)}
    {e : Nat × List String × α} (h : e ∈ idioms dispatches) :
    e.1 = e.2.1.length ∧ (e.2.1, e.2.2) ∈ dispatches := by
  unfold idioms at h
  rw [List.mem_insertionSort, List.mem_map] at h
  rcases h with ⟨d, hd, he⟩
  subst he
  exact ⟨rfl, hd⟩

theorem mem_idioms_of_mem {α : Type} {dispatches : List (List String × α)}
    {d : List String × α} (h : d ∈ dispatches) :
    (d.1.length, d.1, d.2) ∈ idioms dispatches := by
  unfold idioms
  rw [List.mem_insertionSort, List.mem_map]
  exact ⟨d, h, rfl⟩

/-- C1: resolution (`App.cognize`) selects the idiom of greatest gravity
whose token sequence equals the corresponding prefix of the command, and
answers the remainder `comargs[gravity:]` for mutation parsing.  The
witness below instantiates the longest-match scenario of the claim:
idioms `["make"]` (gravity 1) and `["make", "catalog"]` (gravity 2) against
the command `["make", "catalog", "x"]`. -/
theorem cognize_longest_match {α : Type} (dispatches : List (List String × α))
    (comargs toks rest : List String) (a : α)
    (h : cognizeCore dispatches comargs = some (toks, a, rest)) :
    comargs.take toks.length = toks ∧ rest = comargs.drop toks.length ∧
      ∀ p ∈ dispatches, comargs.take p.1.length = p.1 →
        p.1.length ≤ toks.length := by
  unfold cognizeCore at h
  cases hf : findMatch comargs (idioms dispatches) with
  | none => rw [hf] at h; exact absurd h (by simp)
  | some e =>
    rw [hf] at h
    simp only [Option.some.injEq, Prod.mk.injEq] at h
    obtain ⟨ht, ha, hr⟩ := h
    obtain ⟨hg, _⟩ := mem_idioms (findMatch_mem hf)
    have hm := findMatch_matches hf
    subst ht
    refine ⟨by rw [← hg]; exact hm, by rw [← hg]; exact hr.symm, ?_⟩
    intro p hp hmp
    have hfm := findMatch_max (sorted_idioms dispatches) hf
      (p.1.length, p.1, p.2) (mem_idioms_of_mem hp) hmp
    have := keyLe_fst_le hfm
    simpa [← hg] using this

theorem cognize_longest_match_witness :
    cognizeCore [(["make"], 0), (["make", "catalog"], 1)]
        ["make", "catalog", "x"] = some (["make", "catalog"], 1, ["x"]) ∧
      (∀ p ∈ [(["make"], (0 : Nat)), (["make", "catalog"], 1)],
          List.take p.1.length ["make", "catalog", "x"] = p.1 →
            p.1.length ≤ List.length ["make", "catalog"]) := by
  refine ⟨by decide, ?_⟩
  exact (cognize_longest_match [(["make"], 0), (["make", "catalog"], 1)]
    ["make", "catalog", "x"] ["make", "catalog"] ["x"] 1 (by decide)).2.2

/-- C9: the candidate list built by `App.idioms` is ordered by gravity
descending, ties broken by reverse lexicographic comparison of the token
sequences (the descending sort over `(gravity, tokens)` tuples); and any
two same-gravity idioms that both equal the command prefix of that length
carry the same token sequence, so the claim that the reverse
lexicographically greater sequence wins among distinct such idioms holds
vacuously: distinct same-gravity idioms can never both match. -/
theorem idioms_ordering {α : Type} (dispatches : List (List String × α))
    (C : List String) :
    List.Sorted (fun a b : Nat × List String × α =>
        b.1 < a.1 ∨ (b.1 = a.1 ∧ pyLeTokens b.2.1 a.2.1 = true))
      (idioms dispatches) ∧
    ∀ e1 e2 : Nat × List String × α, e1 ∈ idioms dispatches →
      e2 ∈ idioms dispatches → e1.1 = e2.1 →
      C.take e1.1 = e1.2.1 → C.take e2.1 = e2.2.1 → e1.2.1 = e2.2.1 := by
  constructor
  · exact List.Pairwise.imp (fun h => keyLe_iff.mp h) (sorted_idioms dispatches)
  · intro e1 e2 _ _ hg hm1 hm2
    rw [← hm1, ← hm2, hg]

theorem idioms_ordering_witness :
    List.Sorted (fun a b : Nat × List String × Nat =>
        b.1 < a.1 ∨ (b.1 = a.1 ∧ pyLeTokens b.2.1 a.2.1 = true))
      (idioms [(["make"], 0), (["make", "catalog"], 1)]) :=
  (idioms_ordering [(["make"], 0), (["make", "catalog"], 1)] []).1

/-- C8 counterexample: registering the bare action name `do_` (the prefix
with no remainder) yields the single-token idiom `[""]` with gravity 1 —
`"".split("_")` is `[""]`, never `[]` — and resolution of the empty
command line against it fails, so a bare prefix is not a zero-token idiom
and does not match an empty command line. -/
theorem bare_prefix_counterexample :
    buildDispatches [("do_", true)] = [([""], "do_")] ∧
      idioms (buildDispatches [("do_", true)]) = [(1, [""], "do_")] ∧
      cognizeCore (buildDispatches [("do_", true)]) [] = none := by
  exact ⟨by decide, by decide, by decide⟩

/-- C8 (amended): at construction each eligible action name starting with
`do_` is stripped of the marker, the remainder split on `_`, and the
resulting token sequence registered in the idiom table with gravity equal
to the token count; a bare `do_` with no remainder yields the single
empty-string token (gravity 1), which does not match the empty command
line — it matches exactly a command whose first token is the empty
string. -/
theorem dispatch_registration (attrs : List (String × Bool)) (a : String)
    (hmem : (a, true) ∈ attrs) (hpre : startsWithDo a = true) :
    ((pySplitOn '_' (String.mk (a.data.drop 3)), a) ∈ buildDispatches attrs ∧
      ((pySplitOn '_' (String.mk (a.data.drop 3))).length,
        pySplitOn '_' (String.mk (a.data.drop 3)), a) ∈
          idioms (buildDispatches attrs)) ∧
      cognizeCore (buildDispatches [("do_", true)]) [] = none ∧
      cognizeCore (buildDispatches [("do_", true)]) [""] =
        some ([""], "do_", []) := by
  have hb : (pySplitOn '_' (String.mk (a.data.drop 3)), a) ∈
      buildDispatches attrs := by
    unfold buildDispatches
    rw [List.mem_filterMap]
    refine ⟨(a, true), hmem, ?_⟩
    simp [hpre]
  exact ⟨⟨hb, mem_idioms_of_mem hb⟩, by decide, by decide⟩

theorem dispatch_registration_witness :
    ((pySplitOn '_' (String.mk ("do_make_catalog".data.drop 3)),
        "do_make_catalog") ∈ buildDispatches [("do_make_catalog", true)] ∧
      ((pySplitOn '_' (String.mk ("do_make_catalog".data.drop 3))).length,
        pySplitOn '_' (String.mk ("do_make_catalog".data.drop 3)),
        "do_make_catalog") ∈
          idioms (buildDispatches [("do_make_catalog", true)])) ∧
      cognizeCore (buildDispatches [("do_", true)]) [] = none ∧
      cognizeCore (buildDispatches [("do_", true)]) [""] =
        some ([""], "do_", []) :=
  dispatch_registration [("do_make_catalog", true)] "do_make_catalog"
    (by decide) (by decide)

theorem cognizeModel_ok (m : AppModel) (args : List String)
    (hsed : ∀ a, ∃ r, m.sed a = Except.ok r) :
    ∃ o, cognizeModel m args = Except.ok o := by
  unfold cognizeModel
  split
  · exact ⟨none, rfl⟩
  · rename_i toks aid confargs heq
    obtain ⟨r, hr⟩ := hsed confargs
    rw [hr]
    exact ⟨some (toks, aid, r), rfl⟩

/-- C2 counterexample: an error raised by the mutation parser `conf.sed` is
raised inside `cognize`, which `App.run` calls at line 268, outside its
only `try/except` (lines 280-288); the error propagates past the run loop
instead of being converted into an Outcome. -/
theorem run_uncaught_sed_error :
    runModel sedFailApp ["help"] "cli" =
      Except.error "mutation syntax error" := rfl

/-- C2 (amended): whenever the mutation parser returns normally, the run
loop always terminates normally with exactly one report — errors raised
during action execution are recovered and converted into an Outcome — but
an error raised during mutation parsing (inside `cognize`) is not
recovered and propagates past the run loop, as the counterexample shows. -/
theorem run_recovery (m : AppModel) (comargs : List String) (mode : String)
    (hsed : ∀ a, ∃ r, m.sed a = Except.ok r) :
    ∃ out, runModel m comargs mode = Except.ok out := by
  simp only [runModel]
  split
  · rename_i msg heq
    obtain ⟨o, ho⟩ := cognizeModel_ok m (stripExplain comargs).2 hsed
    rw [ho] at heq
    exact absurd heq (by simp)
  · exact ⟨_, rfl⟩
  · split
    · exact ⟨_, rfl⟩
    · split
      · exact ⟨_, rfl⟩
      · exact ⟨_, rfl⟩
      · exact ⟨_, rfl⟩

theorem run_recovery_witness :
    ∃ out, runModel plainApp ["make", "x"] "cli" = Except.ok out :=
  run_recovery plainApp ["make", "x"] "cli" (fun a => ⟨a, rfl⟩)

/-- C3: when the first token is `explain` and the rest resolves, the
matched action is never invoked; `App.run` calls `do_explain` instead,
which produces a Success report whose body quotes the idiom and the action
documentation and whose payload carries the matched idiom tokens, the
action reference and its documentation, the computed barewords, and the
configuration snapshot `conf.toJDN()`. -/
theorem explain_dry_run (m : AppModel) (rest toks barewords : List String)
    (aid : Nat)
    (hc : cognizeModel m rest = Except.ok (some (toks, aid, barewords))) :
    runModel m ("explain" :: rest) "cli" = Except.ok
      { report := Report.mk RStatus.success (explainBody toks (m.doc aid))
          (some (explainData m toks aid barewords))
        exitCode := some 0
        guiResult := none
        invoked := none
        logs := [] } := by
  have hp : stripExplain ("explain" :: rest) = (true, rest) := rfl
  simp only [runModel, hp, hc]
  simp [finishRun, indicates_failure]

theorem explain_dry_run_witness :
    runModel plainApp ["explain", "make", "x"] "cli" = Except.ok
      { report := Report.mk RStatus.success
          (explainBody ["make"] (some "makes things"))
          (some (explainData plainApp ["make"] 7 ["x"]))
        exitCode := some 0
        guiResult := none
        invoked := none
        logs := [] } :=
  explain_dry_run plainApp ["make", "x"] ["make"] ["x"] 7 rfl

/-- C4: an action that raises during execution is caught by the
`try/except` of `App.run` (lines 280-288); the run loop finishes with an
Exception report whose body is exactly the raised message, and `crashed`
emits that message as a critical log record (clix.py line 355). -/
theorem action_error_exception (m : AppModel) (comargs toks barewords :
    List String) (aid : Nat) (msg : String)
    (hx : (stripExplain comargs).1 = false)
    (hc : cognizeModel m (stripExplain comargs).2 =
      Except.ok (some (toks, aid, barewords)))
    (ha : m.act aid barewords = Except.error msg) :
    runModel m comargs "cli" = Except.ok
      { report := Report.mk RStatus.exception msg none
        exitCode := some 1
        guiResult := none
        invoked := some aid
        logs := [("critical", msg)] } := by
  simp only [runModel, hc, hx]
  simp [ha, finishRun, indicates_failure]

theorem action_error_exception_witness :
    runModel crashApp ["run", "fast"] "cli" = Except.ok
      { report := Report.mk RStatus.exception "boom" none
        exitCode := some 1
        guiResult := none
        invoked := some 3
        logs := [("critical", "boom")] } :=
  action_error_exception crashApp ["run", "fast"] ["run"] ["fast"] 3 "boom"
    rfl rfl rfl

/-- C5: when no registered idiom matches the tokens handed to resolution,
`cognize` answers `None` and `App.run` finishes with a Failure report
carrying the guidance message that suggests the help command, and exit
code 1. -/
theorem no_match_failure (m : AppModel) (comargs : List String)
    (h : cognizeCore m.dispatches (stripExplain comargs).2 = none) :
    cognizeModel m (stripExplain comargs).2 = Except.ok none ∧
      runModel m comargs "cli" = Except.ok noMatchOut := by
  have hcm : cognizeModel m (stripExplain comargs).2 = Except.ok none := by
    unfold cognizeModel
    rw [h]
  refine ⟨hcm, ?_⟩
  simp only [runModel, hcm]
  simp [finishRun, indicates_failure, noMatchOut]

theorem no_match_failure_witness :
    cognizeModel emptyApp (stripExplain ["bogus", "verb"]).2 =
        Except.ok none ∧
      runModel emptyApp ["bogus", "verb"] "cli" = Except.ok noMatchOut :=
  no_match_failure emptyApp ["bogus", "verb"] rfl

/-- C6: an action that finishes without setting any report leaves
`self.report` as `None`, so `App.run` (lines 299-300) synthesizes a crash
report: an Exception outcome whose body says no report was returned, with
the accompanying critical log record. -/
theorem missing_report_exception (m : AppModel)
    (comargs toks barewords : List String) (aid : Nat)
    (hx : (stripExplain comargs).1 = false)
    (hc : cognizeModel m (stripExplain comargs).2 =
      Except.ok (some (toks, aid, barewords)))
    (ha : m.act aid barewords = Except.ok none) :
    runModel m comargs "cli" = Except.ok
      { report := Report.mk RStatus.exception noReportBody none
        exitCode := some 1
        guiResult := none
        invoked := some aid
        logs := [("critical", noReportBody)] } := by
  simp only [runModel, hc, hx]
  simp [ha, finishRun, indicates_failure]

theorem missing_report_exception_witness :
    runModel silentApp ["quiet"] "cli" = Except.ok
      { report := Report.mk RStatus.exception noReportBody none
        exitCode := some 1
        guiResult := none
        invoked := some 4
        logs := [("critical", noReportBody)] } :=
  missing_report_exception silentApp ["quiet"] ["quiet"] [] 4 rfl rfl rfl

theorem finishRun_cli_exit (rep : Report) (inv : Option Nat)
    (logs : List (String × String)) :
    ((finishRun rep "cli" inv logs).exitCode = some 0 ↔
      (rep.status = RStatus.success ∨ rep.status = RStatus.inconclusive)) ∧
    ((finishRun rep "cli" inv logs).exitCode = some 1 ↔
      (rep.status = RStatus.failure ∨ rep.status = RStatus.exception)) := by
  obtain ⟨st, body, data⟩ := rep
  cases st <;> simp [finishRun, indicates_failure]

/-- C7: every cli invocation that runs to completion exits with code 0
exactly when the produced report status does not indicate failure (Success
or Inconclusive) and with code 1 exactly when it does (Failure or
Exception), as `App.run` decides via `report.status.indicates_failure`
(clix.py lines 308-311). -/
theorem exit_code_matches_outcome (m : AppModel) (comargs : List String)
    (out : RunOut) (h : runModel m comargs "cli" = Except.ok out) :
    (out.exitCode = some 0 ↔
      (out.report.status = RStatus.success ∨
        out.report.status = RStatus.inconclusive)) ∧
    (out.exitCode = some 1 ↔
      (out.report.status = RStatus.failure ∨
        out.report.status = RStatus.exception)) := by
  simp only [runModel] at h
  split at h
  · exact absurd h (by simp)
  · injection h with h
    subst h
    exact finishRun_cli_exit _ _ _
  · split at h
    · injection h with h
      subst h
      exact finishRun_cli_exit _ _ _
    · split at h
      · injection h with h
        subst h
        exact finishRun_cli_exit _ _ _
      · injection h with h
        subst h
        exact finishRun_cli_exit _ _ _
      · injection h with h
        subst h
        exact finishRun_cli_exit _ _ _

theorem exit_code_matches_outcome_witness :
    (noMatchOut.exitCode = some 0 ↔
      (noMatchOut.report.status = RStatus.success ∨
        noMatchOut.report.status = RStatus.inconclusive)) ∧
    (noMatchOut.exitCode = some 1 ↔
      (noMatchOut.report.status = RStatus.failure ∨
        noMatchOut.report.status = RStatus.exception)) :=
  exit_code_matches_outcome emptyApp ["bogus", "verb"] noMatchOut rfl

/-- C10: `App.__init__` reads `self.mode` (clix.py line 46) right after the
plain assignments of lines 41-45; neither the class body of `App` nor any
of its methods ever binds `mode`, so constructing base `App` — whatever its
arguments — fails with an AttributeError before configuration loading, the
dispatch-table scan and the run loop; only a subclass that supplies a
`mode` attribute passes the lookup and reaches those phases. -/
theorem app_requires_mode (name run_mode : String)
    (comargs sub : List String) :
    ("mode" ∉ appClassAttrs ∧ "mode" ∉ appAssignedAttrs) ∧
    appInit name run_mode comargs [] =
      ([InitPhase.assignBasics],
        some "AttributeError: App object has no attribute mode") ∧
    ("mode" ∉ sub → appInit name run_mode comargs sub =
      ([InitPhase.assignBasics],
        some "AttributeError: App object has no attribute mode")) ∧
    ("mode" ∈ sub → appInit name run_mode comargs sub =
      ([InitPhase.assignBasics, InitPhase.readMode, InitPhase.configSetup,
        InitPhase.attrScan, InitPhase.runLoop], none)) := by
  refine ⟨⟨by decide, by decide⟩, rfl, ?_, ?_⟩
  · intro h
    unfold appInit
    rw [if_neg ?_]
    intro hm
    rcases List.mem_append.mp hm with hm | hm
    · revert hm
      decide
    · exact h hm
  · intro h
    unfold appInit
    rw [if_pos (List.mem_append.mpr (Or.inr h))]

theorem app_requires_mode_witness :
    appInit "RGB" "cli" ["help"] ["mode"] =
      ([InitPhase.assignBasics, InitPhase.readMode, InitPhase.configSetup,
        InitPhase.attrScan, InitPhase.runLoop], none) :=
  (app_requires_mode "RGB" "cli" ["help"] ["mode"]).2.2.2 (by decide)

end Caragols
